import Mathlib

/-!
Shallow embedding of the task-store module `models/todo.py` of the
to-do-list repository, together with theorems settling the spec claims.

Conventions of the embedding:
* A Python task dict is the record `Task`; every field the code ever
  writes is present (the code only reads fields with `.get` defaults for
  `category`, `notes`, `created_at`, `due_date`, which the record makes
  total, matching every task the code itself constructs).
* The store object (`self.tasks`, `self.next_id`) is the record `Todo`;
  methods become functions `Todo → … → result × Todo`.  A trailing `Bool`
  in a result records whether `save_tasks` was invoked during the call.
* Python's stable `list.sort(key=k)` is modelled by
  `List.insertionSort (fun a b => k a ≤ k b)`: both are the (unique)
  stable sort for the total preorder induced by the key, and
  `reverse=True` is the stable sort for the reversed key comparison.
* `datetime.now().isoformat()` is an opaque input string `created_at`.
* Exact rational arithmetic (`ℚ`) stands in for Python's division in
  `completion_rate`.
-/

namespace TodoApp

/-- A task dict as built by `Todo.create_task`. -/
structure Task where
  id : Nat
  title : String
  completed : Bool
  priority : String
  category : String
  created_at : String
  due_date : Option String
  notes : String
deriving Repr, DecidableEq

/-- The store state: `self.tasks` and `self.next_id`. -/
structure Todo where
  tasks : List Task
  next_id : Nat
deriving Repr, DecidableEq

/-! ### Python string primitives

`str.strip()`, `str.lower()` and string comparison are modelled directly
on the character lists so that every definition evaluates inside the
kernel.  Python compares strings lexicographically by code point, strips
whitespace from both ends, and lowercases character by character. -/

/-- `str.strip()` on a character list (ASCII whitespace suffices for
everything this program handles). -/
def trimChars (l : List Char) : List Char :=
  ((l.dropWhile Char.isWhitespace).reverse.dropWhile Char.isWhitespace).reverse

/-- `s.strip()`. -/
def pyStrip (s : String) : String := ⟨trimChars s.data⟩

/-- `s.lower()`. -/
def pyLower (s : String) : String := ⟨s.data.map Char.toLower⟩

/-- Python's `s <= t` on character lists: code-point lexicographic. -/
def lexLe : List Char → List Char → Bool
  | [], _ => true
  | _ :: _, [] => false
  | a :: as, b :: bs => if a = b then lexLe as bs else decide (a < b)

/-- Python's `s <= t` on strings. -/
def strLe (s t : String) : Bool := lexLe s.data t.data

namespace Todo

/-- `Todo.__init__` before `load_tasks` runs, and the state `load_tasks`
falls back to on a missing or malformed snapshot. -/
def initState : Todo := { tasks := [], next_id := 1 }

/-! ### create_task -/

/-- The task dict literal built inside `create_task`. -/
def newTask (st : Todo) (title : String) (priority : String)
    (category : String) (due_date : Option String) (created_at : String) :
    Task :=
  { id := st.next_id
    title := pyStrip title
    completed := false
    priority := priority
    category := category
    created_at := created_at
    due_date := due_date
    notes := "" }

/-- `create_task`: raises `ValueError` (modelled as `.error`) when
`not title or not title.strip()`, leaving the store untouched;
otherwise builds the task dict, appends it, bumps the counter, saves,
and returns the task. -/
def create_task (st : Todo) (title : String) (priority : String)
    (category : String) (due_date : Option String) (created_at : String) :
    Except String Task × Todo :=
  if title = "" ∨ pyStrip title = "" then
    (.error "Task title cannot be empty", st)
  else
    let task := newTask st title priority category due_date created_at
    (.ok task, { tasks := st.tasks ++ [task], next_id := st.next_id + 1 })

/-! ### read_tasks -/

/-- The filtering stage of `read_tasks`.  `some ""` falls through the
`if filter_by:` guard exactly like `None`. -/
def applyFilter (tasks : List Task) : Option String → List Task
  | none => tasks
  | some f =>
    if f = "" then tasks
    else if f = "completed" then tasks.filter (fun t => t.completed)
    else if f = "pending" then tasks.filter (fun t => !t.completed)
    else if f = "high" ∨ f = "medium" ∨ f = "low" then
      tasks.filter (fun t => t.priority = f)
    else if f.startsWith "category:" then
      let category := (f.splitOn ":").getD 1 ""
      tasks.filter (fun t => t.category = category)
    else tasks

/-- `priority_order.get(x[priority], 4)` with
`priority_order = \x7bhigh: 1, medium: 2, low: 3\x7d`. -/
def priority_order (p : String) : Nat :=
  if p = "high" then 1 else if p = "medium" then 2
  else if p = "low" then 3 else 4

/-- The sort key `(x[completed], priority_order.get(x[priority], 4))`,
with `False < True` encoded as `0 < 1`. -/
def priorityKey (t : Task) : Nat × Nat :=
  ((if t.completed then 1 else 0), priority_order t.priority)

/-- Lexicographic comparison of Python 2-tuples of numbers. -/
def keyLe (a b : Nat × Nat) : Prop :=
  a.1 < b.1 ∨ (a.1 = b.1 ∧ a.2 ≤ b.2)

instance decKeyLe : DecidableRel keyLe := fun a b => by
  unfold keyLe; exact inferInstance

/-- The sort key `x.get(due_date) or '9999-12-31'`: a missing due date
(`None`) and an empty-string due date are both falsy, so both are
replaced by the far-future sentinel. -/
def dueKey (t : Task) : String :=
  match t.due_date with
  | none => "9999-12-31"
  | some s => if s = "" then "9999-12-31" else s

/-- The sorting stage of `read_tasks` (an unrecognized `sort_by` leaves
the list order untouched). -/
def sortTasks (sort_by : String) (tasks : List Task) : List Task :=
  if sort_by = "priority" then
    List.insertionSort (fun a b => keyLe (priorityKey a) (priorityKey b)) tasks
  else if sort_by = "created_at" then
    List.insertionSort (fun a b => strLe b.created_at a.created_at = true) tasks
  else if sort_by = "title" then
    List.insertionSort
      (fun a b => strLe (pyLower a.title) (pyLower b.title) = true) tasks
  else if sort_by = "due_date" then
    List.insertionSort (fun a b => strLe (dueKey a) (dueKey b) = true) tasks
  else tasks

/-- `read_tasks(filter_by, sort_by)`: copy, filter, stable-sort. -/
def read_tasks (st : Todo) (filter_by : Option String) (sort_by : String) :
    List Task :=
  sortTasks sort_by (applyFilter st.tasks filter_by)

/-! ### get_task -/

/-- `get_task`: first task whose `id` matches, else `None`. -/
def get_task (st : Todo) (task_id : Nat) : Option Task :=
  st.tasks.find? (fun t => t.id = task_id)

/-! ### update_task -/

/-- A JSON value supplied in an update request.  The code only ever
receives strings (or `null`) for the string-typed fields and an
arbitrary truthy/falsy value for `completed`, which it coerces with
`bool(value)`. -/
inductive Value where
  | null : Value
  | str : String → Value
  | bool : Bool → Value
deriving Repr, DecidableEq

/-- Python truthiness of a `Value` (`bool(value)`). -/
def Value.truthy : Value → Bool
  | .null => false
  | .str s => s ≠ ""
  | .bool b => b

/-- The string payload of a `Value` (string-typed update fields carry
strings on the only call path, the JSON request body). -/
def Value.text : Value → String
  | .str s => s
  | .null => ""
  | .bool _ => ""

/-- `allowed_fields` from `update_task`. -/
def allowed_fields : List String :=
  ["title", "completed", "priority", "category", "due_date", "notes"]

/-- `task[field] = value` for the non-`completed` allowed fields. -/
def setField (t : Task) (field : String) (v : Value) : Task :=
  if field = "title" then { t with title := v.text }
  else if field = "priority" then { t with priority := v.text }
  else if field = "category" then { t with category := v.text }
  else if field = "due_date" then { t with due_date := some v.text }
  else if field = "notes" then { t with notes := v.text }
  else t

/-- One iteration of the `for field, value in kwargs.items()` loop:
skip unrecognized or `None`-valued fields, raise (`.error`) on a blank
title, coerce `completed` with `bool`, store everything else verbatim. -/
def applyField (t : Task) (field : String) (v : Value) :
    Except Unit Task :=
  if field ∈ allowed_fields ∧ v ≠ .null then
    if field = "title" ∧ (¬ v.truthy ∨ pyStrip v.text = "") then .error ()
    else if field = "completed" then .ok { t with completed := v.truthy }
    else .ok (setField t field v)
  else .ok t

/-- The whole update loop.  The task dict is mutated in place, so when
the loop raises, the fields already processed stay applied: the `.error`
carries the task as mutated so far. -/
def updateLoop (t : Task) : List (String × Value) → Except Task Task
  | [] => .ok t
  | (f, v) :: rest =>
    match applyField t f v with
    | .error _ => .error t
    | .ok t2 => updateLoop t2 rest

/-- Replace the first task whose id matches (in-place mutation of the
dict aliased from `self.tasks`). -/
def replaceFirstId : List Task → Nat → Task → List Task
  | [], _, _ => []
  | t :: rest, i, t2 =>
    if t.id = i then t2 :: rest else t :: replaceFirstId rest i t2

/-- Result of `update_task`: `None` (unknown id), a raised
`ValueError`, or the updated task. -/
inductive UpdateOutcome where
  | notFound : UpdateOutcome
  | valueError : UpdateOutcome
  | ok : Task → UpdateOutcome
deriving Repr, DecidableEq

/-- `update_task(task_id, **kwargs)`.  Returns the outcome, the store
afterwards, and whether `save_tasks` ran.  On `ValueError` the store
keeps the partially mutated task and nothing was saved. -/
def update_task (st : Todo) (task_id : Nat)
    (kwargs : List (String × Value)) : UpdateOutcome × Todo × Bool :=
  match get_task st task_id with
  | none => (.notFound, st, false)
  | some t =>
    match updateLoop t kwargs with
    | .error t2 =>
      (.valueError, { st with tasks := replaceFirstId st.tasks task_id t2 },
        false)
    | .ok t2 =>
      (.ok t2, { st with tasks := replaceFirstId st.tasks task_id t2 },
        true)

/-! ### delete_task -/

/-- Remove the first task whose id matches.  (`self.tasks.remove(task)`
removes the first element equal to `task`; `task` is the first element
with this id and every earlier element has a different id, hence is not
equal to it.) -/
def removeFirstId : List Task → Nat → List Task
  | [], _ => []
  | t :: rest, i => if t.id = i then rest else t :: removeFirstId rest i

/-- `delete_task`: `(returned bool, store afterwards, saved?)`. -/
def delete_task (st : Todo) (task_id : Nat) : Bool × Todo × Bool :=
  match get_task st task_id with
  | none => (false, st, false)
  | some _ =>
    (true, { st with tasks := removeFirstId st.tasks task_id }, true)

/-! ### get_statistics -/

/-- `d.get(k, dflt)` on a Python dict modelled as an ordered
association list. -/
def dictGet (d : List (String × Nat)) (k : String) (dflt : Nat) : Nat :=
  match d.find? (fun kv => kv.1 = k) with
  | some kv => kv.2
  | none => dflt

/-- `d[k] = v`: overwrite the first binding of `k`, or append. -/
def dictSet : List (String × Nat) → String → Nat → List (String × Nat)
  | [], k, v => [(k, v)]
  | kv :: rest, k, v =>
    if kv.1 = k then (k, v) :: rest else kv :: dictSet rest k v

/-- One iteration of the statistics loop: completed tasks are skipped,
pending tasks bump their priority and category counters. -/
def statsStep (acc : List (String × Nat) × List (String × Nat))
    (t : Task) : List (String × Nat) × List (String × Nat) :=
  if t.completed then acc
  else
    (dictSet acc.1 t.priority (dictGet acc.1 t.priority 0 + 1),
     dictSet acc.2 t.category (dictGet acc.2 t.category 0 + 1))

/-- The dict returned by `get_statistics`. -/
structure Stats where
  total : Nat
  completed : Nat
  pending : Nat
  completion_rate : ℚ
  priority_counts : List (String × Nat)
  category_counts : List (String × Nat)
deriving Repr, DecidableEq

/-- `get_statistics`. -/
def get_statistics (st : Todo) : Stats :=
  let total_tasks := st.tasks.length
  let completed_tasks := (st.tasks.filter (fun t => t.completed)).length
  let counts :=
    st.tasks.foldl statsStep
      ([("high", 0), ("medium", 0), ("low", 0)], [])
  { total := total_tasks
    completed := completed_tasks
    pending := total_tasks - completed_tasks
    completion_rate :=
      if total_tasks > 0 then
        (completed_tasks : ℚ) / (total_tasks : ℚ) * 100
      else 0
    priority_counts := counts.1
    category_counts := counts.2 }

/-! ### search_tasks -/

/-- `needle` matches the front of `hay`. -/
def leadMatch : List Char → List Char → Bool
  | [], _ => true
  | _ :: _, [] => false
  | a :: as, b :: bs => a = b && leadMatch as bs

/-- Python's `needle in hay` substring test on the character lists. -/
def occursIn (needle : List Char) : List Char → Bool
  | [] => leadMatch needle []
  | b :: bs => leadMatch needle (b :: bs) || occursIn needle bs

/-- `search_tasks(query)`: `[]` for a falsy (empty) query, otherwise a
case-insensitive substring scan of title and notes with the query
lowercased and stripped. -/
def search_tasks (st : Todo) (query : String) : List Task :=
  if query = "" then []
  else
    let q := pyStrip (pyLower query)
    st.tasks.filter (fun t =>
      occursIn q.data (pyLower t.title).data ||
      occursIn q.data (pyLower t.notes).data)

/-! ### get_categories and delete_completed_tasks -/

/-- `get_categories`: sorted distinct category values. -/
def get_categories (st : Todo) : List String :=
  List.insertionSort (fun a b => strLe a b = true)
    ((st.tasks.map (fun t => t.category)).dedup)

/-- `delete_completed_tasks`: `(count removed, store afterwards, saved?)`;
saves only when the count is positive. -/
def delete_completed_tasks (st : Todo) : Nat × Todo × Bool :=
  let remaining := st.tasks.filter (fun t => !t.completed)
  let deleted := st.tasks.length - remaining.length
  (deleted, { st with tasks := remaining }, decide (deleted > 0))

/-! ### save_tasks / load_tasks -/

/-- A top-level value of the persisted JSON object. -/
inductive SnapField where
  | tasksF : List Task → SnapField
  | natF : Nat → SnapField
deriving Repr, DecidableEq

/-- The parsed snapshot: a JSON object, i.e. an ordered dict.  Task
records contain only JSON-faithful scalars (ints, strings, booleans,
null), so serializing and reparsing them is the identity and the
snapshot is modelled at the parsed level. -/
def Snapshot := List (String × SnapField)

/-- `save_tasks` writes `\x7b tasks: self.tasks, next_id: self.next_id \x7d`. -/
def save_tasks (st : Todo) : Snapshot :=
  [("tasks", .tasksF st.tasks), ("next_id", .natF st.next_id)]

/-- `data.get(key)` on a snapshot. -/
def Snapshot.get (data : Snapshot) (key : String) : Option SnapField :=
  match data.find? (fun kv => kv.1 = key) with
  | some kv => some kv.2
  | none => none

/-- `load_tasks` applied to a snapshot that parsed:
`data.get('tasks', [])` and `data.get('next_id', 1)`. -/
def load_parsed (data : Snapshot) : Todo :=
  { tasks :=
      match data.get "tasks" with
      | some (.tasksF ts) => ts
      | _ => []
    next_id :=
      match data.get "next_id" with
      | some (.natF n) => n
      | _ => 1 }

/-- `load_tasks`: a missing or unparseable file (`None`) yields the
empty store with the counter at 1. -/
def load_tasks : Option Snapshot → Todo
  | none => initState
  | some data => load_parsed data

end Todo

deriving instance DecidableEq for Except

/-! ### Operation sequences (for the identifier claims) -/

/-- A store mutation, for reasoning about sequences of creates and
deletes. -/
inductive Op where
  | create : String → String → String → Option String → String → Op
  | delete : Nat → Op

/-- Run one operation, also reporting the id of a successfully created
task (a create whose title fails validation raises and creates
nothing). -/
def stepOp (st : Todo) : Op → Todo × Option Nat
  | .create title p c due ca =>
    match Todo.create_task st title p c due ca with
    | (.ok task, st2) => (st2, some task.id)
    | (.error _, st2) => (st2, none)
  | .delete i => ((Todo.delete_task st i).2.1, none)

/-- Run a sequence of operations, collecting the created ids in call
order. -/
def runOps (st : Todo) : List Op → Todo × List Nat
  | [] => (st, [])
  | op :: rest =>
    let r := stepOp st op
    let r2 := runOps r.1 rest
    (r2.1, r.2.toList ++ r2.2)

/-! ### Spec-side predicates -/

/-- Spec reading of "contains as a substring": some decomposition of
`s` exhibits `needle` as a contiguous segment. -/
def substrOf (needle s : String) : Prop :=
  ∃ pre post, s.data = pre ++ needle.data ++ post

/-- Spec reading of "due dates in ascending order", pointwise on
optional due dates (pairs without two dates impose nothing). -/
def optLe : Option String → Option String → Prop
  | some da, some db => strLe da db = true
  | _, _ => True

instance decOptLe : ∀ oa ob : Option String, Decidable (optLe oa ob)
  | some da, some db => inferInstanceAs (Decidable (strLe da db = true))
  | none, none => isTrue trivial
  | none, some _ => isTrue trivial
  | some _, none => isTrue trivial

/-- Spec reading of C3 for a returned sequence: no task lacking a due
date precedes a task having one, and due dates ascend. -/
def dueOrderedSpec (r : List Task) : Prop :=
  List.Pairwise (fun a b => ¬(a.due_date = none ∧ b.due_date ≠ none)) r ∧
  List.Pairwise (fun a b => optLe a.due_date b.due_date) r

instance decDueOrderedSpec (r : List Task) : Decidable (dueOrderedSpec r) :=
  inferInstanceAs (Decidable
    (List.Pairwise (fun a b : Task => ¬(a.due_date = none ∧ b.due_date ≠ none)) r ∧
     List.Pairwise (fun a b : Task => optLe a.due_date b.due_date) r))

/-- A due-date field that is absent, or a nonempty date strictly below
the far-future sentinel — true of every real ISO date except the
sentinel itself. -/
def properDue : Option String → Prop
  | none => True
  | some d => d ≠ "" ∧ strLe "9999-12-31" d = false

instance decProperDue : ∀ o : Option String, Decidable (properDue o)
  | none => isTrue trivial
  | some d => inferInstanceAs (Decidable (d ≠ "" ∧ strLe "9999-12-31" d = false))

/-! ### Concrete states used by witnesses and counterexamples -/

/-- A pending medium-priority task with no due date. -/
def tA : Task :=
  { id := 1, title := "Buy milk", completed := false, priority := "medium",
    category := "general", created_at := "2024-01-01T10:00:00",
    due_date := none, notes := "" }

/-- A one-task store. -/
def stA : Todo := { tasks := [tA], next_id := 2 }

/-- A task whose due date is the far-future sentinel itself. -/
def tMax : Task :=
  { tA with id := 2, title := "Far away", due_date := some "9999-12-31" }

/-- A store holding a task without a due date followed by one due on
the sentinel date. -/
def stMax : Todo := { tasks := [tA, tMax], next_id := 3 }

/-- Tasks with ordinary due dates. -/
def tEarly : Task :=
  { tA with id := 4, title := "Early", due_date := some "2024-01-05" }

/-- See `tEarly`. -/
def tLate : Task :=
  { tA with id := 5, title := "Late", due_date := some "2024-03-01" }

/-- A store with two dated tasks and one undated task, out of order. -/
def stDue : Todo := { tasks := [tLate, tA, tEarly], next_id := 6 }

/-- A pending high-priority task. -/
def tHigh : Task :=
  { tA with id := 2, title := "Walk dog", priority := "high" }

/-- A completed high-priority task. -/
def tDone : Task :=
  { tA with
    id := 3
    title := "Pay bills"
    priority := "high"
    completed := true }

/-- A three-task store with one completed task. -/
def stStats : Todo := { tasks := [tA, tHigh, tDone], next_id := 4 }

/-! ## Lemmas about the substring scan -/

theorem leadMatch_iff : ∀ n h : List Char,
    Todo.leadMatch n h = true ↔ ∃ rest, h = n ++ rest
  | [], h => by simp [Todo.leadMatch]
  | a :: as, [] => by simp [Todo.leadMatch]
  | a :: as, b :: bs => by
    simp only [Todo.leadMatch, Bool.and_eq_true, decide_eq_true_eq,
      List.cons_append]
    constructor
    · rintro ⟨rfl, h⟩
      obtain ⟨rest, rfl⟩ := (leadMatch_iff as bs).mp h
      exact ⟨rest, rfl⟩
    · rintro ⟨rest, heq⟩
      injection heq with h1 h2
      exact ⟨h1.symm, (leadMatch_iff as bs).mpr ⟨rest, h2⟩⟩

theorem occursIn_iff : ∀ n h : List Char,
    Todo.occursIn n h = true ↔ ∃ pre post, h = pre ++ n ++ post
  | n, [] => by
    rw [Todo.occursIn, leadMatch_iff]
    constructor
    · rintro ⟨rest, h⟩
      exact ⟨[], rest, by simpa using h⟩
    · rintro ⟨pre, post, h⟩
      obtain ⟨h1, h2⟩ := List.append_eq_nil.mp h.symm
      obtain ⟨h3, h4⟩ := List.append_eq_nil.mp h1
      exact ⟨post, by simp [h4, h2]⟩
  | n, b :: bs => by
    rw [Todo.occursIn, Bool.or_eq_true, leadMatch_iff, occursIn_iff n bs]
    constructor
    · rintro (⟨rest, h⟩ | ⟨pre, post, h⟩)
      · exact ⟨[], rest, by simpa using h⟩
      · exact ⟨b :: pre, post, by simp [h]⟩
    · rintro ⟨pre, post, h⟩
      cases pre with
      | nil => exact Or.inl ⟨post, by simpa using h⟩
      | cons p ps =>
        rw [List.cons_append, List.cons_append] at h
        injection h with h1 h2
        exact Or.inr ⟨ps, post, h2⟩

theorem occursIn_nil_left (h : List Char) : Todo.occursIn [] h = true := by
  cases h with
  | nil => rfl
  | cons b bs => simp [Todo.occursIn, Todo.leadMatch]

/-- C2 (amended): `search("")` returns the empty list; a nonempty
whitespace-only query strips to the empty pattern and so returns every
task; a query with substance returns exactly the tasks whose lowercased
title or notes contain the stripped, lowercased query as a substring. -/
theorem search_characterization (st : Todo) (query : String) :
    (query = "" → Todo.search_tasks st query = []) ∧
    (query ≠ "" → pyStrip (pyLower query) = "" →
      Todo.search_tasks st query = st.tasks) ∧
    (query ≠ "" → ∀ t, t ∈ Todo.search_tasks st query ↔
      t ∈ st.tasks ∧
        (substrOf (pyStrip (pyLower query)) (pyLower t.title) ∨
         substrOf (pyStrip (pyLower query)) (pyLower t.notes))) := by
  refine ⟨fun h => by rw [Todo.search_tasks, if_pos h], fun h hq => ?_,
    fun h t => ?_⟩
  · rw [Todo.search_tasks, if_neg h]
    apply List.filter_eq_self.mpr
    intro t _
    rw [hq]
    simp [occursIn_nil_left]
  · rw [Todo.search_tasks, if_neg h]
    rw [List.mem_filter, Bool.or_eq_true, occursIn_iff, occursIn_iff]
    rfl

/-- C2 counterexample: on a store with one task, the whitespace-only
query `" "` is not empty, strips to the empty pattern, and returns the
whole (nonempty) task list rather than an empty result set. -/
theorem search_blank_counterexample :
    Todo.search_tasks stA " " = [tA] ∧ stA.tasks ≠ [] ∧
      ([tA] : List Task) ≠ [] := by decide

/-- Witness for the amended C2 at concrete inputs. -/
theorem search_characterization_witness :
    Todo.search_tasks stA "" = [] ∧
    Todo.search_tasks stA " " = stA.tasks ∧
    tA ∈ Todo.search_tasks stA "MILK" :=
  ⟨(search_characterization stA "").1 rfl,
   (search_characterization stA " ").2.1 (by decide) (by decide),
   ((search_characterization stA "MILK").2.2 (by decide) tA).mpr
     ⟨by decide, Or.inl ⟨"buy ".data, [], by decide⟩⟩⟩


/-! ## Lemmas about the lexicographic comparison -/

theorem lexLe_total : ∀ a b : List Char, lexLe a b = true ∨ lexLe b a = true
  | [], _ => Or.inl rfl
  | _ :: _, [] => Or.inr rfl
  | x :: xs, y :: ys => by
    by_cases h : x = y
    · subst h
      simp only [lexLe, if_pos rfl]
      exact lexLe_total xs ys
    · rcases lt_trichotomy x y with h1 | h1 | h1
      · exact Or.inl (by simp [lexLe, h, h1])
      · exact absurd h1 h
      · exact Or.inr (by simp [lexLe, Ne.symm h, h1])

theorem lexLe_trans : ∀ {a b c : List Char},
    lexLe a b = true → lexLe b c = true → lexLe a c = true
  | [], _, _, _, _ => rfl
  | _ :: _, [], _, h1, _ => by simp [lexLe] at h1
  | _ :: _, _ :: _, [], _, h2 => by simp [lexLe] at h2
  | x :: xs, y :: ys, z :: zs, h1, h2 => by
    simp only [lexLe] at h1 h2 ⊢
    by_cases hxy : x = y
    · subst hxy
      by_cases hyz : x = z
      · subst hyz
        simp only [if_pos rfl] at h1 h2 ⊢
        exact lexLe_trans h1 h2
      · simp only [if_pos rfl] at h1
        simp only [if_neg hyz] at h2 ⊢
        exact h2
    · by_cases hyz : y = z
      · subst hyz
        simp only [if_neg hxy] at h1 ⊢
        exact h1
      · simp only [if_neg hxy] at h1
        simp only [if_neg hyz] at h2
        have hxz : x < z :=
          lt_trans (of_decide_eq_true h1) (of_decide_eq_true h2)
        simp only [if_neg (ne_of_lt hxz)]
        exact decide_eq_true hxz

/-! ## Lemmas about read_tasks -/

theorem applyFilter_subset (tasks : List Task) (fb : Option String) :
    ∀ t ∈ Todo.applyFilter tasks fb, t ∈ tasks := by
  intro t ht
  cases fb with
  | none => exact ht
  | some f =>
    simp only [Todo.applyFilter] at ht
    split_ifs at ht <;>
      first
        | exact ht
        | exact List.mem_of_mem_filter ht

/-- C3 (amended): as long as every present due date is nonempty and
strictly below the `"9999-12-31"` sentinel — true of every real ISO
date but the sentinel itself — sorting by due date puts every task
lacking a due date strictly after every task that has one, and lists
the due dates in ascending (code-point, hence chronological) order. -/
theorem due_sort_ordered (st : Todo) (fb : Option String)
    (h : ∀ t ∈ st.tasks, properDue t.due_date) :
    dueOrderedSpec (Todo.read_tasks st fb "due_date") := by
  have hrw : Todo.read_tasks st fb "due_date" =
      List.insertionSort
        (fun a b => strLe (Todo.dueKey a) (Todo.dueKey b) = true)
        (Todo.applyFilter st.tasks fb) := by
    rw [Todo.read_tasks, Todo.sortTasks]
    rw [if_neg (by decide), if_neg (by decide), if_neg (by decide),
      if_pos rfl]
  haveI : IsTotal Task
      (fun a b => strLe (Todo.dueKey a) (Todo.dueKey b) = true) :=
    ⟨fun a b => lexLe_total (Todo.dueKey a).data (Todo.dueKey b).data⟩
  haveI : IsTrans Task
      (fun a b => strLe (Todo.dueKey a) (Todo.dueKey b) = true) :=
    ⟨fun _ _ _ hab hbc => lexLe_trans hab hbc⟩
  have hsorted :
      List.Pairwise
        (fun a b => strLe (Todo.dueKey a) (Todo.dueKey b) = true)
        (Todo.read_tasks st fb "due_date") := by
    rw [hrw]
    exact List.sorted_insertionSort _ _
  have hmem : ∀ t ∈ Todo.read_tasks st fb "due_date", t ∈ st.tasks := by
    intro t ht
    rw [hrw] at ht
    exact applyFilter_subset st.tasks fb t
      ((List.mem_insertionSort _).mp ht)
  constructor
  · refine hsorted.imp_of_mem ?_
    intro a b ha hb hab
    rintro ⟨hana, hbd⟩
    obtain ⟨db, hdb⟩ := Option.ne_none_iff_exists'.mp hbd
    have hpb := h b (hmem b hb)
    rw [hdb] at hpb
    obtain ⟨hne, hlt⟩ := hpb
    have hka : Todo.dueKey a = "9999-12-31" := by
      simp [Todo.dueKey, hana]
    have hkb : Todo.dueKey b = db := by
      simp [Todo.dueKey, hdb, hne]
    rw [hka, hkb] at hab
    exact absurd hab (by rw [hlt]; exact Bool.false_ne_true)
  · refine hsorted.imp_of_mem ?_
    intro a b ha hb hab
    rcases hda : a.due_date with _ | da <;>
      rcases hdb : b.due_date with _ | db
    · exact trivial
    · exact trivial
    · exact trivial
    · have hpa := h a (hmem a ha)
      have hpb := h b (hmem b hb)
      rw [hda] at hpa
      rw [hdb] at hpb
      have hka : Todo.dueKey a = da := by
        simp [Todo.dueKey, hda, hpa.1]
      have hkb : Todo.dueKey b = db := by
        simp [Todo.dueKey, hdb, hpb.1]
      show strLe da db = true
      rw [← hka, ← hkb]
      exact hab

/-- C3 counterexample: a store holding an undated task followed by a
task due exactly on the sentinel date `"9999-12-31"`.  Both receive the
same sort key, the stable sort keeps their order, and the undated task
ends up before the dated one. -/
theorem due_sort_counterexample :
    ¬ dueOrderedSpec (Todo.read_tasks stMax none "due_date") ∧
    Todo.read_tasks stMax none "due_date" = [tA, tMax] ∧
    tA.due_date = none ∧ tMax.due_date = some "9999-12-31" := by decide

/-- Witness for the amended C3 at a concrete store. -/
theorem due_sort_ordered_witness :
    dueOrderedSpec (Todo.read_tasks stDue none "due_date") ∧
    Todo.read_tasks stDue none "due_date" = [tEarly, tLate, tA] :=
  ⟨due_sort_ordered stDue none (by decide), by decide⟩


/-! ## Lemmas about create_task -/

theorem pyStrip_empty : pyStrip "" = "" := rfl

theorem create_task_cond (title : String) (h : pyStrip title ≠ "") :
    ¬(title = "" ∨ pyStrip title = "") := by
  rintro (rfl | h2)
  · exact h pyStrip_empty
  · exact h h2

/-- C5: `create_task` raises exactly when the stripped title is empty,
and then hands back the store unchanged; otherwise it returns the newly
built task, appends it to the collection, and bumps the counter, so the
new id is the old counter value and differs from every id already below
the counter. -/
theorem create_task_validation (st : Todo) (title p c : String)
    (due : Option String) (ca : String) :
    (pyStrip title = "" →
      Todo.create_task st title p c due ca =
        (.error "Task title cannot be empty", st)) ∧
    (pyStrip title ≠ "" →
      Todo.create_task st title p c due ca =
        (.ok (Todo.newTask st title p c due ca),
         { tasks := st.tasks ++ [Todo.newTask st title p c due ca],
           next_id := st.next_id + 1 }) ∧
      (Todo.newTask st title p c due ca).id = st.next_id ∧
      ∀ t ∈ st.tasks, t.id < st.next_id →
        t.id ≠ (Todo.newTask st title p c due ca).id) := by
  constructor
  · intro h
    rw [Todo.create_task, if_pos (Or.inr h)]
  · intro h
    rw [Todo.create_task, if_neg (create_task_cond title h)]
    exact ⟨rfl, rfl, fun t _ hlt => Nat.ne_of_lt hlt⟩

/-- Witness for C5: a whitespace-only title is rejected without
touching the store; a real title is accepted. -/
theorem create_task_validation_witness :
    Todo.create_task Todo.initState "   " "medium" "general" none "t" =
      (.error "Task title cannot be empty", Todo.initState) ∧
    Todo.create_task Todo.initState "pay bills" "medium" "general" none "t" =
      (.ok (Todo.newTask Todo.initState "pay bills" "medium" "general" none "t"),
       { tasks := Todo.initState.tasks ++
           [Todo.newTask Todo.initState "pay bills" "medium" "general" none "t"],
         next_id := Todo.initState.next_id + 1 }) :=
  ⟨(create_task_validation Todo.initState "   " "medium" "general" none "t").1
      (by decide),
   ((create_task_validation Todo.initState "pay bills" "medium" "general" none
      "t").2 (by decide)).1⟩

/-- C9: `create_task` validates nothing but the title.  Any priority
and category strings — recognized or not — are stored verbatim on the
returned task, which ends up in the store. -/
theorem create_priority_verbatim (st : Todo) (title p c : String)
    (due : Option String) (ca : String) (h : pyStrip title ≠ "") :
    (Todo.create_task st title p c due ca).1 =
      .ok (Todo.newTask st title p c due ca) ∧
    (Todo.newTask st title p c due ca).priority = p ∧
    (Todo.newTask st title p c due ca).category = c ∧
    Todo.newTask st title p c due ca ∈
      (Todo.create_task st title p c due ca).2.tasks := by
  rw [Todo.create_task, if_neg (create_task_cond title h)]
  exact ⟨rfl, rfl, rfl, List.mem_append_right _ (List.mem_singleton.mpr rfl)⟩

/-- Witness for C9 with a priority outside {high, medium, low}. -/
theorem create_priority_verbatim_witness :
    (Todo.create_task Todo.initState "task" "URGENT!!" "work" none "t").1 =
      .ok (Todo.newTask Todo.initState "task" "URGENT!!" "work" none "t") ∧
    (Todo.newTask Todo.initState "task" "URGENT!!" "work" none "t").priority =
      "URGENT!!" ∧
    (Todo.newTask Todo.initState "task" "URGENT!!" "work" none "t").category =
      "work" ∧
    Todo.newTask Todo.initState "task" "URGENT!!" "work" none "t" ∈
      (Todo.create_task Todo.initState "task" "URGENT!!" "work" none "t").2.tasks :=
  create_priority_verbatim Todo.initState "task" "URGENT!!" "work" none "t"
    (by decide)

/-! ## Lemmas about delete_task -/

theorem find_id_first : ∀ (l1 : List Task) (t : Task) (l2 : List Task)
    (i : Nat), t.id = i → (∀ u ∈ l1, u.id ≠ i) →
    List.find? (fun u => u.id = i) (l1 ++ t :: l2) = some t
  | [], t, l2, i, ht, _ => by simp [List.find?, ht]
  | u :: rest, t, l2, i, ht, hl1 => by
    rw [List.cons_append, List.find?]
    have hu : (decide (u.id = i)) = false :=
      decide_eq_false (hl1 u (List.mem_cons_self u rest))
    rw [hu]
    exact find_id_first rest t l2 i ht fun v hv =>
      hl1 v (List.mem_cons_of_mem u hv)

theorem removeFirstId_first : ∀ (l1 : List Task) (t : Task) (l2 : List Task)
    (i : Nat), t.id = i → (∀ u ∈ l1, u.id ≠ i) →
    Todo.removeFirstId (l1 ++ t :: l2) i = l1 ++ l2
  | [], t, l2, i, ht, _ => by simp [Todo.removeFirstId, ht]
  | u :: rest, t, l2, i, ht, hl1 => by
    rw [List.cons_append, Todo.removeFirstId,
      if_neg (hl1 u (List.mem_cons_self u rest)), List.cons_append]
    rw [removeFirstId_first rest t l2 i ht fun v hv =>
      hl1 v (List.mem_cons_of_mem u hv)]

/-- C6: deleting an id that no stored task carries returns `False` and
neither changes the collection nor saves; deleting a present id removes
precisely the first task carrying it, returns `True`, and saves. -/
theorem delete_task_spec (st : Todo) (i : Nat) :
    ((∀ t ∈ st.tasks, t.id ≠ i) →
      Todo.delete_task st i = (false, st, false)) ∧
    (∀ l1 t l2, st.tasks = l1 ++ t :: l2 → t.id = i →
      (∀ u ∈ l1, u.id ≠ i) →
      Todo.delete_task st i = (true, { st with tasks := l1 ++ l2 }, true)) := by
  constructor
  · intro h
    have hf : Todo.get_task st i = none := by
      rw [Todo.get_task, List.find?_eq_none]
      intro t ht
      simpa using h t ht
    rw [Todo.delete_task, hf]
  · intro l1 t l2 hdecomp ht hl1
    have hf : Todo.get_task st i = some t := by
      rw [Todo.get_task, hdecomp]
      exact find_id_first l1 t l2 i ht hl1
    rw [Todo.delete_task, hf]
    rw [show Todo.removeFirstId st.tasks i = l1 ++ l2 from by
      rw [hdecomp]; exact removeFirstId_first l1 t l2 i ht hl1]

/-- Witness for C6: deleting the absent id 5 is a silent no-op with no
save; deleting the present id 1 removes the task and saves. -/
theorem delete_task_spec_witness :
    Todo.delete_task stA 5 = (false, stA, false) ∧
    Todo.delete_task stA 1 = (true, { stA with tasks := [] }, true) :=
  ⟨(delete_task_spec stA 5).1 (by decide),
   (delete_task_spec stA 1).2 [] tA [] (by decide) (by decide)
     (by intro u hu; cases hu)⟩

/-- C8: loading the snapshot written by `save_tasks` restores the task
collection and the counter exactly. -/
theorem snapshot_roundtrip (st : Todo) :
    Todo.load_tasks (some (Todo.save_tasks st)) = st := by
  cases st with
  | mk tasks next_id =>
    simp [Todo.load_tasks, Todo.load_parsed, Todo.save_tasks,
      Todo.Snapshot.get, List.find?]


/-! ## Lemmas about update_task -/

theorem setField_id (t : Task) (f : String) (v : Todo.Value) :
    (Todo.setField t f v).id = t.id := by
  rw [Todo.setField]
  split_ifs <;> rfl

theorem applyField_ok_id (t t2 : Task) (f : String) (v : Todo.Value)
    (h : Todo.applyField t f v = .ok t2) : t2.id = t.id := by
  rw [Todo.applyField] at h
  split_ifs at h <;> cases h
  · rfl
  · exact setField_id t f v
  · rfl

theorem updateLoop_append (t : Task) (l1 l2 : List (String × Todo.Value)) :
    Todo.updateLoop t (l1 ++ l2) =
      match Todo.updateLoop t l1 with
      | .ok t2 => Todo.updateLoop t2 l2
      | .error t2 => .error t2 := by
  induction l1 generalizing t with
  | nil => rfl
  | cons x rest ih =>
    obtain ⟨f, v⟩ := x
    simp only [List.cons_append, Todo.updateLoop]
    rcases happ : Todo.applyField t f v with e | tm
    · simp only []
    · simp only []
      exact ih tm

theorem updateLoop_ok_id : ∀ (t : Task) (l : List (String × Todo.Value))
    (t2 : Task), Todo.updateLoop t l = .ok t2 → t2.id = t.id
  | t, [], t2, h => by cases h; rfl
  | t, (f, v) :: rest, t2, h => by
    rw [Todo.updateLoop] at h
    rcases happ : Todo.applyField t f v with e | tm
    · simp only [happ] at h
      cases h
    · simp only [happ] at h
      rw [updateLoop_ok_id tm rest t2 h, applyField_ok_id t tm f v happ]

theorem find_replaceFirstId : ∀ (l : List Task) (i : Nat) (t t2 : Task),
    List.find? (fun u => u.id = i) l = some t → t2.id = i →
    List.find? (fun u => u.id = i) (Todo.replaceFirstId l i t2) = some t2
  | [], i, t, t2, h, _ => by simp [List.find?] at h
  | u :: rest, i, t, t2, h, h2 => by
    by_cases hu : u.id = i
    · rw [Todo.replaceFirstId, if_pos hu]
      simp [List.find?, h2]
    · rw [Todo.replaceFirstId, if_neg hu]
      rw [List.find?, decide_eq_false hu] at h
      simp only [List.find?, decide_eq_false hu]
      exact find_replaceFirstId rest i t t2 h h2

theorem get_task_id (st : Todo) (i : Nat) (t : Task)
    (h : Todo.get_task st i = some t) : t.id = i := by
  rw [Todo.get_task] at h
  simpa using List.find?_some h

theorem get_task_replaceFirstId (st : Todo) (i : Nat) (t t2 : Task)
    (h : Todo.get_task st i = some t) (h2 : t2.id = i) :
    Todo.get_task { st with tasks := Todo.replaceFirstId st.tasks i t2 } i =
      some t2 := by
  rw [Todo.get_task] at h ⊢
  exact find_replaceFirstId st.tasks i t t2 h h2

theorem applyField_priority (t : Task) (p : String) :
    Todo.applyField t "priority" (Todo.Value.str p) =
      .ok { t with priority := p } := by
  rw [Todo.applyField,
    if_pos ⟨by decide, fun h => Todo.Value.noConfusion h⟩,
    if_neg (fun h => absurd h.1 (by decide)), if_neg (by decide),
    Todo.setField, if_neg (by decide), if_pos rfl]
  rfl

/-- C1 (amended): `update_task` performs no validation on the priority
field.  Any non-null priority value — recognized or not — is written
into the task verbatim, the call reports success with the updated task,
and the store is saved.  (The claim that unrecognized priorities are
silently dropped does not hold; they are stored.) -/
theorem update_priority_verbatim (st : Todo) (i : Nat) (t : Task)
    (p : String) (ht : Todo.get_task st i = some t) :
    Todo.update_task st i [("priority", Todo.Value.str p)] =
      (.ok { t with priority := p },
       { st with tasks :=
           Todo.replaceFirstId st.tasks i { t with priority := p } },
       true) ∧
    Todo.get_task
        (Todo.update_task st i [("priority", Todo.Value.str p)]).2.1 i =
      some { t with priority := p } := by
  have hloop : Todo.updateLoop t [("priority", Todo.Value.str p)] =
      .ok { t with priority := p } := by
    rw [Todo.updateLoop, applyField_priority]
    rfl
  constructor
  · simp only [Todo.update_task, ht, hloop]
  · rw [show (Todo.update_task st i [("priority", Todo.Value.str p)]).2.1 =
        { st with tasks :=
            Todo.replaceFirstId st.tasks i { t with priority := p } } from by
      simp only [Todo.update_task, ht, hloop]]
    exact get_task_replaceFirstId st i t _ ht (get_task_id st i t ht)

/-- C1 counterexample: updating task 1 (priority `"medium"`) with the
unrecognized priority `"urgent"` does not leave the priority unchanged:
the stored priority becomes `"urgent"`, and the call still reports
success. -/
theorem update_priority_counterexample :
    (Todo.update_task stA 1 [("priority", Todo.Value.str "urgent")]).1 =
      .ok { tA with priority := "urgent" } ∧
    (Todo.update_task stA 1
        [("priority", Todo.Value.str "urgent")]).2.1.tasks.map Task.priority =
      ["urgent"] ∧
    stA.tasks.map Task.priority = ["medium"] := by decide

/-- Witness for the amended C1 at a concrete store. -/
theorem update_priority_verbatim_witness :
    Todo.update_task stA 1 [("priority", Todo.Value.str "whatever")] =
      (.ok { tA with priority := "whatever" },
       { stA with tasks :=
           Todo.replaceFirstId stA.tasks 1 { tA with priority := "whatever" } },
       true) ∧
    Todo.get_task
        (Todo.update_task stA 1 [("priority", Todo.Value.str "whatever")]).2.1
        1 = some { tA with priority := "whatever" } :=
  update_priority_verbatim stA 1 tA "whatever" (by decide)

theorem applyField_blank_title (t : Task) (v : Todo.Value)
    (hv : v ≠ Todo.Value.null)
    (hblank : v.truthy = false ∨ pyStrip v.text = "") :
    Todo.applyField t "title" v = .error () := by
  have hcond : "title" = "title" ∧ (¬ v.truthy ∨ pyStrip v.text = "") := by
    refine ⟨rfl, ?_⟩
    rcases hblank with h | h
    · exact Or.inl (by simp [h])
    · exact Or.inr h
  rw [Todo.applyField, if_pos ⟨by decide, hv⟩, if_pos hcond]

/-- C10: when the kwargs contain recognized non-null fields followed by
a blank title, `update_task` raises after having already applied the
earlier fields to the stored task: the store keeps the partially
updated task (`t2`, the result of applying the prefix), and no save
happens. -/
theorem update_title_error_partial (st : Todo) (i : Nat) (t t2 : Task)
    (pre post : List (String × Todo.Value)) (v : Todo.Value)
    (ht : Todo.get_task st i = some t) (hv : v ≠ Todo.Value.null)
    (hblank : v.truthy = false ∨ pyStrip v.text = "")
    (hpre : Todo.updateLoop t pre = .ok t2) :
    Todo.update_task st i (pre ++ ("title", v) :: post) =
      (.valueError,
       { st with tasks := Todo.replaceFirstId st.tasks i t2 }, false) ∧
    Todo.get_task
        (Todo.update_task st i (pre ++ ("title", v) :: post)).2.1 i =
      some t2 := by
  have hloop : Todo.updateLoop t (pre ++ ("title", v) :: post) =
      .error t2 := by
    simp only [updateLoop_append, hpre]
    rw [Todo.updateLoop, applyField_blank_title t2 v hv hblank]
  have ht2id : t2.id = i := by
    rw [updateLoop_ok_id t pre t2 hpre]
    exact get_task_id st i t ht
  constructor
  · simp only [Todo.update_task, ht, hloop]
  · rw [show (Todo.update_task st i (pre ++ ("title", v) :: post)).2.1 =
        { st with tasks := Todo.replaceFirstId st.tasks i t2 } from by
      simp only [Todo.update_task, ht, hloop]]
    exact get_task_replaceFirstId st i t t2 ht ht2id

/-- Witness for C10: the notes field, listed before the blank title, is
already applied when the title validation raises, and nothing is
saved. -/
theorem update_title_error_partial_witness :
    Todo.update_task stA 1
        [("notes", Todo.Value.str "remember"),
         ("title", Todo.Value.str "   ")] =
      (.valueError,
       { stA with tasks :=
           Todo.replaceFirstId stA.tasks 1 { tA with notes := "remember" } },
       false) ∧
    Todo.get_task
        (Todo.update_task stA 1
          [("notes", Todo.Value.str "remember"),
           ("title", Todo.Value.str "   ")]).2.1 1 =
      some { tA with notes := "remember" } :=
  update_title_error_partial stA 1 tA { tA with notes := "remember" }
    [("notes", Todo.Value.str "remember")] [] (Todo.Value.str "   ")
    (by decide) (by decide) (by decide) (by decide)


/-! ## Lemmas about operation sequences -/

theorem stepOp_next_id (st : Todo) (op : Op) :
    st.next_id ≤ (stepOp st op).1.next_id := by
  cases op with
  | create title p c due ca =>
    simp only [stepOp, Todo.create_task]
    split_ifs
    · exact Nat.le_refl _
    · exact Nat.le_succ _
  | delete j =>
    simp only [stepOp, Todo.delete_task]
    rcases h : Todo.get_task st j with _ | t <;> simp only [h] <;>
      exact Nat.le_refl _

theorem stepOp_created (st : Todo) (op : Op) (i : Nat)
    (h : (stepOp st op).2 = some i) :
    i = st.next_id ∧ (stepOp st op).1.next_id = st.next_id + 1 := by
  cases op with
  | create title p c due ca =>
    simp only [stepOp, Todo.create_task] at h ⊢
    split_ifs at h ⊢
    cases h
    exact ⟨rfl, rfl⟩
  | delete j =>
    simp only [stepOp] at h
    cases h

theorem runOps_next_id : ∀ (st : Todo) (ops : List Op),
    st.next_id ≤ (runOps st ops).1.next_id
  | _, [] => Nat.le_refl _
  | st, op :: rest =>
    le_trans (stepOp_next_id st op) (runOps_next_id (stepOp st op).1 rest)

theorem runOps_ids_ge : ∀ (st : Todo) (ops : List Op) (i : Nat),
    i ∈ (runOps st ops).2 → st.next_id ≤ i
  | _, [], i, h => absurd h (List.not_mem_nil i)
  | st, op :: rest, i, h => by
    have h2 : i ∈ (stepOp st op).2.toList ++
        (runOps (stepOp st op).1 rest).2 := h
    rcases List.mem_append.mp h2 with h1 | h1
    · rcases ho : (stepOp st op).2 with _ | j
      · rw [ho] at h1
        cases h1
      · rw [ho] at h1
        have hij : i = j := by simpa using h1
        subst hij
        exact Nat.le_of_eq (stepOp_created st op i ho).1.symm
    · exact le_trans (stepOp_next_id st op)
        (runOps_ids_ge (stepOp st op).1 rest i h1)

theorem runOps_pairwise : ∀ (st : Todo) (ops : List Op),
    ((runOps st ops).2).Pairwise (· < ·)
  | _, [] => List.Pairwise.nil
  | st, op :: rest => by
    have hrest := runOps_pairwise (stepOp st op).1 rest
    rcases ho : (stepOp st op).2 with _ | j
    · have hids : (runOps st (op :: rest)).2 =
          (runOps (stepOp st op).1 rest).2 := by
        show (stepOp st op).2.toList ++ _ = _
        rw [ho]
        rfl
      rw [hids]
      exact hrest
    · have hids : (runOps st (op :: rest)).2 =
          j :: (runOps (stepOp st op).1 rest).2 := by
        show (stepOp st op).2.toList ++ _ = _
        rw [ho]
        rfl
      rw [hids]
      refine List.Pairwise.cons ?_ hrest
      intro k hk
      have hk2 := runOps_ids_ge (stepOp st op).1 rest k hk
      have hj := stepOp_created st op j ho
      rw [hj.1]
      calc st.next_id < st.next_id + 1 := Nat.lt_succ_self _
        _ = (stepOp st op).1.next_id := hj.2.symm
        _ ≤ k := hk2

/-- C4: over every sequence of creates and deletes, from any starting
state, the ids returned by the successful creates are pairwise strictly
increasing in call order — so an id is never reused, even after the
task bearing it is deleted — and the counter never decreases. -/
theorem create_ids_strictly_increasing (st : Todo) (ops : List Op) :
    ((runOps st ops).2).Pairwise (· < ·) ∧
    st.next_id ≤ (runOps st ops).1.next_id :=
  ⟨runOps_pairwise st ops, runOps_next_id st ops⟩


/-! ## Lemmas about get_statistics -/

theorem dictGet_dictSet (d : List (String × Nat)) (k k' : String)
    (v dflt : Nat) :
    Todo.dictGet (Todo.dictSet d k v) k' dflt =
      if k' = k then v else Todo.dictGet d k' dflt := by
  induction d with
  | nil =>
    by_cases h : k' = k
    · subst h
      simp [Todo.dictSet, Todo.dictGet, List.find?]
    · simp [Todo.dictSet, Todo.dictGet, List.find?, h, Ne.symm h]
  | cons kv rest ih =>
    obtain ⟨k1, v1⟩ := kv
    by_cases h1 : k1 = k
    · subst h1
      rw [Todo.dictSet, if_pos rfl]
      by_cases h2 : k' = k1
      · subst h2
        simp [Todo.dictGet, List.find?]
      · simp [Todo.dictGet, List.find?, h2, Ne.symm h2]
    · rw [Todo.dictSet, if_neg h1]
      by_cases h2 : k' = k1
      · subst h2
        rw [if_neg h1]
        simp [Todo.dictGet, List.find?]
      · rw [Todo.dictGet, Todo.dictGet, List.find?, List.find?,
          decide_eq_false fun hh => h2 hh.symm]
        exact ih

theorem statsFold_priority : ∀ (l : List Task)
    (acc : List (String × Nat) × List (String × Nat)) (p : String),
    Todo.dictGet (l.foldl Todo.statsStep acc).1 p 0 =
      Todo.dictGet acc.1 p 0 +
        (l.filter (fun t => !t.completed && t.priority = p)).length
  | [], acc, p => by simp
  | t :: rest, acc, p => by
    rw [List.foldl_cons, statsFold_priority rest _ p, List.filter_cons]
    by_cases hc : t.completed = true
    · rw [show Todo.statsStep acc t = acc from by
        rw [Todo.statsStep, if_pos hc]]
      rw [if_neg (by simp [hc])]
    · have hstep : (Todo.statsStep acc t).1 =
          Todo.dictSet acc.1 t.priority (Todo.dictGet acc.1 t.priority 0 + 1) := by
        rw [Todo.statsStep, if_neg hc]
      rw [hstep, dictGet_dictSet]
      by_cases hp : t.priority = p
      · subst hp
        rw [if_pos rfl, if_pos (by simp [hc]), List.length_cons]
        omega
      · rw [if_neg fun hh => hp hh.symm, if_neg (by simp [hp])]

theorem statsFold_category : ∀ (l : List Task)
    (acc : List (String × Nat) × List (String × Nat)) (c : String),
    Todo.dictGet (l.foldl Todo.statsStep acc).2 c 0 =
      Todo.dictGet acc.2 c 0 +
        (l.filter (fun t => !t.completed && t.category = c)).length
  | [], acc, c => by simp
  | t :: rest, acc, c => by
    rw [List.foldl_cons, statsFold_category rest _ c, List.filter_cons]
    by_cases hc : t.completed = true
    · rw [show Todo.statsStep acc t = acc from by
        rw [Todo.statsStep, if_pos hc]]
      rw [if_neg (by simp [hc])]
    · have hstep : (Todo.statsStep acc t).2 =
          Todo.dictSet acc.2 t.category (Todo.dictGet acc.2 t.category 0 + 1) := by
        rw [Todo.statsStep, if_neg hc]
      rw [hstep, dictGet_dictSet]
      by_cases hcat : t.category = c
      · subst hcat
        rw [if_pos rfl, if_pos (by simp [hc]), List.length_cons]
        omega
      · rw [if_neg fun hh => hcat hh.symm, if_neg (by simp [hcat])]

theorem dictGet_initCounts (p : String) :
    Todo.dictGet [("high", 0), ("medium", 0), ("low", 0)] p 0 = 0 := by
  rcases h : List.find? (fun kv => kv.1 = p)
      [("high", 0), ("medium", 0), ("low", 0)] with _ | kv
  · rw [Todo.dictGet, h]
  · have hm := List.mem_of_find?_eq_some h
    simp only [List.mem_cons, List.not_mem_nil, or_false] at hm
    rw [Todo.dictGet, h]
    rcases hm with rfl | rfl | rfl <;> rfl

/-- C7: `completion_rate` is `0` on an empty store and exactly
`completed / total × 100` (in exact arithmetic) otherwise, and both
count dictionaries tally exactly the tasks whose `completed` flag is
false: for every key the recorded count is the number of pending tasks
with that priority (resp. category). -/
theorem statistics_spec (st : Todo) :
    (st.tasks.length = 0 → (Todo.get_statistics st).completion_rate = 0) ∧
    (st.tasks.length ≠ 0 →
      (Todo.get_statistics st).completion_rate =
        ((st.tasks.filter (fun t => t.completed)).length : ℚ) /
          (st.tasks.length : ℚ) * 100) ∧
    (∀ p, Todo.dictGet (Todo.get_statistics st).priority_counts p 0 =
      (st.tasks.filter (fun t => !t.completed && t.priority = p)).length) ∧
    (∀ c, Todo.dictGet (Todo.get_statistics st).category_counts c 0 =
      (st.tasks.filter (fun t => !t.completed && t.category = c)).length) := by
  refine ⟨fun h => ?_, fun h => ?_, fun p => ?_, fun c => ?_⟩
  · simp only [Todo.get_statistics]
    rw [if_neg (by omega)]
  · simp only [Todo.get_statistics]
    rw [if_pos (Nat.pos_of_ne_zero h)]
  · simp only [Todo.get_statistics]
    rw [statsFold_priority, dictGet_initCounts, Nat.zero_add]
  · simp only [Todo.get_statistics]
    rw [statsFold_category]
    simp [Todo.dictGet, List.find?]

/-- Witness for C7: the empty store has rate `0`; a three-task store
with one completed task has rate `1/3 × 100`, and the `"high"` counter
counts only the pending high-priority task, not the completed one. -/
theorem statistics_spec_witness :
    (Todo.get_statistics Todo.initState).completion_rate = 0 ∧
    (Todo.get_statistics stStats).completion_rate =
      ((stStats.tasks.filter (fun t => t.completed)).length : ℚ) /
        (stStats.tasks.length : ℚ) * 100 ∧
    Todo.dictGet (Todo.get_statistics stStats).priority_counts "high" 0 =
      (stStats.tasks.filter
        (fun t => !t.completed && t.priority = "high")).length :=
  ⟨(statistics_spec Todo.initState).1 rfl,
   (statistics_spec stStats).2.1 (by decide),
   (statistics_spec stStats).2.2.1 "high"⟩


end TodoApp
